import Mathlib

/-!
Verification development for the conversational scheduling assistant in
`src/main.py` (Flask webhook + LangChain agent + Postgres persistence +
Google Calendar/Sheets tools).

The Python source is shallowly embedded: each function of the source is
translated into a Lean definition over explicit data; Python exceptions are
modelled with `Except`, Python `None` with `Option`, Python dictionaries with
structures of `Option` fields, and the external services (database, calendar,
spreadsheet, the LLM agent runner) with explicit parameters describing their
observable behaviour at the call sites of the source.
-/

set_option autoImplicit false

namespace Chatbot

/-! ## Time model

`datetime` values are modelled by a wall-clock reading in minutes since an
epoch placed at a Monday 00:00 (`wall`), together with an optional fixed UTC
offset in minutes (`off`), mirroring naive (`off = none`) versus aware
(`off = some o`) `datetime` objects.  `weekday 0 = Monday` as in Python.
-/

/-- A parsed ISO-8601 date-time as produced by `datetime.fromisoformat`:
a wall-clock reading in minutes since a Monday-00:00 epoch, plus the
optional UTC offset (in minutes) carried by the string. -/
structure PyDateTime where
  wall : Int
  off : Option Int
deriving DecidableEq

/-- The fixed business timezone of the source, `timezone(timedelta(hours=-3))`,
as an offset in minutes. -/
def tzSP : Int := -180

/-- Semantics of `dt.astimezone(tz_sp)` on the wall clock: an aware datetime
is converted from its own offset; a naive datetime is interpreted in the
process's local timezone (`sysOff`) and then converted.  Returns the
wall-clock reading in the business timezone. -/
def convertToSP (sysOff : Int) (dt : PyDateTime) : Int :=
  dt.wall - (dt.off.getD sysOff) + tzSP

/-- `dt.hour` of a wall-clock reading in minutes. -/
def hourOf (w : Int) : Int :=
  (w.emod 1440).ediv 60

/-- `dt.weekday()` of a wall-clock reading in minutes (0 = Monday, the epoch
day being a Monday). -/
def weekdayOf (w : Int) : Int :=
  (w.ediv 1440).emod 7

/-! ## `verificar_disponibilidade_agenda`

The Google Calendar `events().list(timeMin=start, timeMax=end)` call is
modelled by filtering an explicit event list `cal` for events intersecting
the half-open query window, per the Calendar API contract (`timeMin` is an
exclusive lower bound on the event end, `timeMax` an exclusive upper bound on
the event start).  Events are given as half-open intervals in business-tz
wall minutes.
-/

/-- A calendar event, as a half-open interval in business-timezone minutes. -/
structure Event where
  startMin : Int
  endMin : Int
deriving DecidableEq

/-- Whether an event is returned by the `events().list` query for the
30-minute slot starting at wall-clock `w`. -/
def overlapsB (w : Int) (e : Event) : Bool :=
  decide (e.startMin < w + 30 ∧ w < e.endMin)

/-- The out-of-hours message returned by `verificar_disponibilidade_agenda`. -/
def foraMsg : String :=
  "Horário fora do expediente. O atendimento é de Segunda a Sexta, das 8h às 17h."

/-- Embedding of `verificar_disponibilidade_agenda` (src/main.py lines
100-117): convert the timestamp to UTC-3, reject starts outside
Mon-Fri 08:00-16:59, otherwise report busy exactly when the calendar query
returns at least one event. -/
def verificar_disponibilidade_agenda (sysOff : Int) (cal : List Event)
    (dt : PyDateTime) : String :=
  let w := convertToSP sysOff dt
  if ¬(8 ≤ hourOf w ∧ hourOf w < 17 ∧ weekdayOf w < 5) then
    foraMsg
  else if (cal.filter (overlapsB w)).isEmpty then
    "Horário disponível"
  else
    "Horário ocupado"

/-! ## `registrar_consulta`

The spreadsheet append and the calendar insert are modelled as updates of an
explicit `SchedState`; a throwing write is modelled by an `Option String`
carrying the exception message (`str(e)`), `none` meaning the write
succeeds.  The parsed-and-converted start time is supplied as broken-down
local date parts (the `fromisoformat`/`astimezone` conversion itself is
covered by the time model above).  `strftime` with the `pt_BR` locale set by
the source is modelled by the Portuguese day and month names below.
-/

/-- A broken-down local date-time as consumed by `strftime`. -/
structure DateParts where
  weekday : Nat
  day : Nat
  month : Nat
  year : Nat
  hour : Nat
  minute : Nat
deriving DecidableEq

/-- `%A` under the `pt_BR` locale (0 = Monday). -/
def diaPt : Nat → String
  | 0 => "segunda-feira"
  | 1 => "terça-feira"
  | 2 => "quarta-feira"
  | 3 => "quinta-feira"
  | 4 => "sexta-feira"
  | 5 => "sábado"
  | _ => "domingo"

/-- `%B` under the `pt_BR` locale (1 = January). -/
def mesPt : Nat → String
  | 1 => "janeiro"
  | 2 => "fevereiro"
  | 3 => "março"
  | 4 => "abril"
  | 5 => "maio"
  | 6 => "junho"
  | 7 => "julho"
  | 8 => "agosto"
  | 9 => "setembro"
  | 10 => "outubro"
  | 11 => "novembro"
  | _ => "dezembro"

/-- Zero-padded two-digit field (`%d`, `%m`, `%H`, `%M`). -/
def pad2 (n : Nat) : String :=
  if n < 10 then "0" ++ toString n else toString n

/-- `start_time.strftime("%A, %d de %B de %Y, às %H:%M")`. -/
def fmtConsulta (d : DateParts) : String :=
  diaPt d.weekday ++ ", " ++ pad2 d.day ++ " de " ++ mesPt d.month ++ " de "
    ++ toString d.year ++ ", às " ++ pad2 d.hour ++ ":" ++ pad2 d.minute

/-- `start_time.strftime("%d/%m/%Y %H:%M")` (the spreadsheet column). -/
def fmtSheet (d : DateParts) : String :=
  pad2 d.day ++ "/" ++ pad2 d.month ++ "/" ++ toString d.year ++ " "
    ++ pad2 d.hour ++ ":" ++ pad2 d.minute

/-- Observable state of the two external stores written by
`registrar_consulta`: spreadsheet rows and calendar event summaries. -/
structure SchedState where
  rows : List (List String)
  events : List String
deriving DecidableEq

/-- Embedding of `registrar_consulta` (src/main.py lines 119-137).
`sheetErr` / `calErr` give the exception message when the respective external
write throws (`none` = the write succeeds).  The surrounding `try/except`
turns any exception into the error-tagged string, leaving whatever writes
already happened in place. -/
def registrar_consulta (sheetErr calErr : Option String) (st : SchedState)
    (nome_completo cpf telefone : String) (d : DateParts) : String × SchedState :=
  match sheetErr with
  | some m => ("Erro ao registrar a consulta: " ++ m, st)
  | none =>
    let st1 : SchedState :=
      ⟨st.rows ++ [[nome_completo, cpf, telefone, fmtSheet d, "Confirmado"]], st.events⟩
    match calErr with
    | some m => ("Erro ao registrar a consulta: " ++ m, st1)
    | none =>
      ("Agendamento confirmado com sucesso para " ++ fmtConsulta d ++ ".",
        ⟨st1.rows, st1.events ++ ["Consulta: " ++ nome_completo]⟩)

/-! ## `responder` (reply encoder) -/

/-- Python `str.replace` specialised to a single-character pattern, which is
how the source uses it: every occurrence of `c` becomes `r`. -/
def pyReplaceChar (s : String) (c : Char) (r : String) : String :=
  String.join (s.data.map (fun d => if d = c then r else String.singleton d))

/-- The escaping chain of `responder`:
`msg.replace('&', "&amp;").replace('<', "&lt;").replace('>', "&gt;")`. -/
def escapeXml (m : String) : String :=
  pyReplaceChar (pyReplaceChar (pyReplaceChar m '&' "&amp;") '<' "&lt;") '>' "&gt;"

/-- Python `str.strip()` (whitespace from both ends). -/
def pyStrip (s : String) : String :=
  String.mk (((s.data.dropWhile Char.isWhitespace).reverse.dropWhile
    Char.isWhitespace).reverse)

/-- Truthiness test `if msg and msg.strip():` of the `responder` loop. -/
def isNonBlankB (m : String) : Bool :=
  decide (m ≠ "") && decide (pyStrip m ≠ "")

/-- One `<Message><Body>...</Body></Message>` unit of the TwiML envelope. -/
def msgUnit (m : String) : String :=
  "<Message><Body>" ++ escapeXml m ++ "</Body></Message>"

/-- Embedding of `responder` (src/main.py lines 174-185): the XML envelope
string accumulated by the loop.  (The `isinstance(mensagens, str)` promotion
of a bare string to a one-element list is handled at the call sites.) -/
def responder (mensagens : List String) : String :=
  (mensagens.foldl
    (fun acc msg => if isNonBlankB msg then acc ++ msgUnit msg else acc)
    "<Response>") ++ "</Response>"

/-! ## Persistence adapter

The `usuarios` table row for one `sender_id` is modelled by `Row`; the whole
table interaction of one call is modelled by the value the database hands
back (or the failure it raises).  The in-memory `user_data` dictionary is
modelled by `Profile` (`dict.get` of an absent key being `none`), and
LangChain `HumanMessage`/`AIMessage` history entries by `HMsg`.
-/

/-- One persisted or in-flight chat-history entry. -/
inductive HMsg where
  | human (content : String)
  | ai (content : String)
deriving DecidableEq

/-- The in-memory `user_data` dictionary: the two recognized profile fields,
each possibly absent/`None`. -/
structure Profile where
  nome : Option String
  cpf : Option String
deriving DecidableEq

/-- The stored `usuarios` row for a sender: `nome`, `cpf` (nullable) and the
`chat_history` JSON array. -/
structure Row where
  nome : Option String
  cpf : Option String
  hist : List HMsg
deriving DecidableEq

/-- SQL `COALESCE(new, old)` on nullable text. -/
def coalesce (new old : Option String) : Option String :=
  match new with
  | some v => some v
  | none => old

/-- Embedding of `save_user_data` (src/main.py lines 80-96): the upsert
`INSERT ... ON CONFLICT (sender_id) DO UPDATE SET nome = COALESCE(%s,
usuarios.nome), cpf = COALESCE(%s, usuarios.cpf), chat_history = %s`.
Input `db` is the stored row before the call (`none` = no row yet); the
result is the stored row after a successful call.  (The call site that can
fail is modelled at the webhook level, where a failed save leaves `db`
unchanged, matching the swallowed exception of the source.) -/
def save_user_data (db : Option Row) (user_data : Profile) (chat_history : List HMsg) :
    Option Row :=
  match db with
  | none => some ⟨user_data.nome, user_data.cpf, chat_history⟩
  | some r => some ⟨coalesce user_data.nome r.nome, coalesce user_data.cpf r.cpf,
      chat_history⟩

/-- `nome` of the stored row, if any. -/
def savedNome (db : Option Row) : Option String :=
  match db with
  | some r => r.nome
  | none => none

/-- `cpf` of the stored row, if any. -/
def savedCpf (db : Option Row) : Option String :=
  match db with
  | some r => r.cpf
  | none => none

/-- `chat_history` of the stored row (`[]` if no row). -/
def savedHist (db : Option Row) : List HMsg :=
  match db with
  | some r => r.hist
  | none => []

/-- A sequence of turns applied to the store: each turn saves its extracted
profile and its (already truncated) history. -/
def applyTurns (db : Option Row) (ts : List (Profile × List HMsg)) : Option Row :=
  ts.foldl (fun d t => save_user_data d t.1 t.2) db

/-! ### `load_user_data`

One stored `chat_history` entry, as `json.loads` hands it to the loop of
`load_user_data`: either not a dictionary at all (so `msg.get` raises
`AttributeError`), or a dictionary whose `type`/`content` keys may be
missing.  A missing or null `content` makes the `HumanMessage`/`AIMessage`
constructor raise (their `content` field is a required string).
-/

/-- One element of the stored `chat_history` JSON array. -/
inductive HEntry where
  | nondict
  | dict (type : Option String) (content : Option String)
deriving DecidableEq

/-- Whether the loop of `load_user_data` processes this entry without
raising. -/
def entryGood : HEntry → Bool
  | .dict _ (some _) => true
  | _ => false

/-- The message the loop appends for a well-formed entry (`type = "ai"` gives
an `AIMessage`, anything else a `HumanMessage`).  The `nondict`/missing-content
cases are unreachable under `entryGood` and map to a dummy value. -/
def convEntry : HEntry → HMsg
  | .dict t (some s) => if t = some "ai" then HMsg.ai s else HMsg.human s
  | _ => HMsg.human ""

/-- The history-parsing loop of `load_user_data`, with Python exception
semantics: on the first entry that raises, the entries appended so far are
kept (the exception is caught by the function-level handler, which returns
the partially filled list). -/
def parseHistAux (acc : List HMsg) : List HEntry → List HMsg
  | [] => acc
  | .dict t (some s) :: rest =>
      parseHistAux (acc ++ [if t = some "ai" then HMsg.ai s else HMsg.human s]) rest
  | _ :: _ => acc

/-- What the database hands back to `load_user_data`: a raised failure
(connection or query error), no row, or a row whose `chat_history` column is
nullable. -/
structure DBRow where
  nome : Option String
  cpf : Option String
  hist : Option (List HEntry)
deriving DecidableEq

/-- Embedding of `load_user_data` (src/main.py lines 60-78).  `user_data` is
set before the history loop runs, so a failure inside the loop still returns
the already-built profile together with the prefix parsed so far; a
connection/query failure (`Except.error`) or an absent row returns
`(none, [])`.  `if history_json:` skips a null or empty array. -/
def load_user_data (dbr : Except Unit (Option DBRow)) : Option Profile × List HMsg :=
  match dbr with
  | .error _ => (none, [])
  | .ok none => (none, [])
  | .ok (some r) =>
    match r.hist with
    | none => (some ⟨r.nome, r.cpf⟩, [])
    | some entries =>
      if entries = [] then (some ⟨r.nome, r.cpf⟩, [])
      else (some ⟨r.nome, r.cpf⟩, parseHistAux [] entries)

/-! ## JSON values and `json.loads`

`json.loads` is modelled by a fuel-bounded recursive-descent parser over the
character list of the input, producing `Json` values.  The model covers the
JSON grammar the agent's output contract ranges over, with two declared
simplifications of the standard library's behaviour: string escape sequences
are not decoded (a backslash fails the parse) and numbers are integers.
Object key duplication keeps the later binding, as `json.loads` does.
-/

/-- A parsed JSON value (Python value produced by `json.loads`). -/
inductive Json where
  | null
  | bool (b : Bool)
  | num (n : Int)
  | str (s : String)
  | arr (xs : List Json)
  | obj (fields : List (String × Json))

/-- The opening-brace character, `\x7b`. -/
def lbrace : Char := Char.ofNat 123

/-- The closing-brace character, `\x7d`. -/
def rbrace : Char := Char.ofNat 125

/-- Skip JSON whitespace. -/
def skipWs : List Char → List Char
  | [] => []
  | c :: cs =>
    if c = ' ' ∨ c = '\t' ∨ c = '\n' ∨ c = '\r' then skipWs cs else c :: cs

/-- Parse the remainder of a JSON string literal (after the opening quote);
escape sequences are not modelled, so a backslash fails. -/
def parseStrAux (acc : List Char) : List Char → Option (String × List Char)
  | [] => none
  | c :: cs =>
    if c = '"' then some (String.mk acc, cs)
    else if c = '\\' then none
    else parseStrAux (acc ++ [c]) cs

/-- Match an expected literal tail (for `null`, `true`, `false`). -/
def expectChars : List Char → List Char → Option (List Char)
  | [], cs => some cs
  | p :: ps, c :: cs => if c = p then expectChars ps cs else none
  | _ :: _, [] => none

/-- Numeric value of a digit run. -/
def digitsVal (ds : List Char) : Int :=
  ds.foldl (fun a c => a * 10 + (Int.ofNat (c.toNat - 48))) 0

/-- Parser mode: a top-level value, the tail of an array after `[`, or the
tail of an object after `\x7b` (with the elements accumulated so far). -/
inductive PMode where
  | val
  | arrTail (acc : List Json)
  | objTail (acc : List (String × Json))

/-- Fuel-bounded recursive-descent JSON parser. -/
def parseJ (fuel : Nat) (m : PMode) (cs : List Char) : Option (Json × List Char) :=
  match fuel with
  | 0 => none
  | Nat.succ f =>
    match m with
    | .val =>
      match skipWs cs with
      | [] => none
      | c :: rest =>
        if c = '"' then
          (parseStrAux [] rest).map (fun p => (Json.str p.1, p.2))
        else if c = '[' then
          match skipWs rest with
          | ']' :: rest2 => some (Json.arr [], rest2)
          | _ => parseJ f (.arrTail []) rest
        else if c = lbrace then
          match skipWs rest with
          | c2 :: rest2 =>
            if c2 = rbrace then some (Json.obj [], rest2)
            else parseJ f (.objTail []) rest
          | [] => none
        else if c = 'n' then
          (expectChars ['u', 'l', 'l'] rest).map (fun r => (Json.null, r))
        else if c = 't' then
          (expectChars ['r', 'u', 'e'] rest).map (fun r => (Json.bool true, r))
        else if c = 'f' then
          (expectChars ['a', 'l', 's', 'e'] rest).map (fun r => (Json.bool false, r))
        else if c = '-' then
          match rest.span Char.isDigit with
          | ([], _) => none
          | (ds, rest2) => some (Json.num (-(digitsVal ds)), rest2)
        else if c.isDigit then
          match (c :: rest).span Char.isDigit with
          | (ds, rest2) => some (Json.num (digitsVal ds), rest2)
        else none
    | .arrTail acc =>
      match parseJ f .val cs with
      | none => none
      | some (v, rest) =>
        match skipWs rest with
        | ',' :: rest2 => parseJ f (.arrTail (v :: acc)) rest2
        | ']' :: rest2 => some (Json.arr (v :: acc).reverse, rest2)
        | _ => none
    | .objTail acc =>
      match skipWs cs with
      | c :: rest =>
        if c = '"' then
          match parseStrAux [] rest with
          | none => none
          | some (k, rest2) =>
            match skipWs rest2 with
            | ':' :: rest3 =>
              match parseJ f .val rest3 with
              | none => none
              | some (v, rest4) =>
                match skipWs rest4 with
                | ',' :: rest5 => parseJ f (.objTail ((k, v) :: acc)) rest5
                | c2 :: rest5 =>
                  if c2 = rbrace then some (Json.obj ((k, v) :: acc).reverse, rest5)
                  else none
                | [] => none
            | _ => none
        else none
      | [] => none

/-- Embedding of `json.loads`: parse one JSON document, allowing only
trailing whitespace; `none` models a raised `json.JSONDecodeError`. -/
def pyJsonLoads (s : String) : Option Json :=
  match parseJ (2 * s.data.length + 8) .val s.data with
  | some (j, rest) => if skipWs rest = [] then some j else none
  | none => none

/-- Python `dict.get` on a JSON object: later duplicate keys win, as in
`json.loads`. -/
def objGet (fields : List (String × Json)) (k : String) : Option Json :=
  fields.foldl (fun acc p => if p.1 = k then some p.2 else acc) none

/-! ## The webhook turn (src/main.py lines 187-247)

The handler is modelled as a function of the state it observes: the loaded
profile and history, the inbound text, the behaviour of
`agent_executor.invoke` (either a raised exception or a result dictionary),
the stored row and whether the save raises.  Its value is what the handler
produces at the transport boundary: `Except.error e` models an exception
propagating out of the handler (Flask then answers with an HTML 500, not
TwiML), `Except.ok (replies, db)` models the reply list handed to
`responder` together with the stored row after the turn.
-/

/-- The exception classes the handler's `except` clauses distinguish. -/
inductive PyExc where
  | jsonDecodeError
  | attributeError
  | keyError
  | typeError
  | nameError
  | otherError
deriving DecidableEq

/-- The Python value found under the runner result's `output` key: the agent
contract makes it a string, but nothing enforces that; any non-string value
makes `json.loads` raise `TypeError`. -/
inductive PyVal where
  | str (s : String)
  | nonstr
deriving DecidableEq

/-- The `args` dictionary of a recorded `registrar_consulta` tool call, as
read by `args.get('nome_completo')` / `args.get('cpf')`. -/
structure CallArgs where
  nome_completo : Option String
  cpf : Option String
deriving DecidableEq

/-- One element of a `tool_calls` list: `call['name']` / `call['args']` may
be missing (raising `KeyError`, which the block swallows). -/
structure ToolCall where
  name : Option String
  args : Option CallArgs
deriving DecidableEq

/-- The `.log` field of the last intermediate step.  In LangChain it is a
plain string (so `'tool_calls' in log` is a substring test and
`log.tool_calls` raises `AttributeError`); `withToolCalls` models any
object shape on which both the membership test and the attribute access
succeed. -/
inductive LogVal where
  | plainStr (s : String)
  | withToolCalls (calls : List ToolCall)
deriving DecidableEq

/-- The shape of `result['intermediate_steps']` as the extraction block walks
it: key missing (the `[(\x7b\x7d,)]` default makes `.log` on a dict raise
`AttributeError`), an empty list (`[-1]` raises `IndexError`), or a last
step carrying a `.log`. -/
inductive TraceShape where
  | missing
  | emptySteps
  | lastLog (lv : LogVal)
deriving DecidableEq

/-- The dictionary returned by `agent_executor.invoke`: the `output` value
(possibly missing, `result.get("output", "\x7b\x7d")` then defaults) and the
intermediate-steps trace. -/
structure AgentResult where
  output : Option PyVal
  steps : TraceShape
deriving DecidableEq

/-- Behaviour of `agent_executor.invoke`: it either raises or returns a
result dictionary. -/
inductive RunnerOutcome where
  | raise (e : PyExc)
  | ret (res : AgentResult)
deriving DecidableEq

/-- The `for call in tool_calls:` loop of the extraction block.  A call with
a missing `name` or `args` key raises `KeyError`, which aborts the loop but
keeps the in-place mutations of `user_data` made so far (the block's
`except Exception: pass`).  A matching call assigns both fields from
`args.get`, possibly to `None`. -/
def extractLoop (ud : Profile) : List ToolCall → Profile
  | [] => ud
  | c :: rest =>
    match c.name with
    | none => ud
    | some n =>
      if n = "registrar_consulta" then
        match c.args with
        | none => ud
        | some a => extractLoop ⟨a.nome_completo, a.cpf⟩ rest
      else
        extractLoop ud rest

/-- The profile-extraction block (src/main.py lines 228-240) as a whole: a
`try` whose every failure path is swallowed by `except Exception: pass`.
When the runner itself raised, `result` is unbound and the block's first
line raises `NameError`, also swallowed.  A plain string `.log` either fails
the substring test (no-op) or passes it and then raises `AttributeError` on
`.tool_calls` (swallowed); either way `user_data` is unchanged. -/
def extractBlock (ud : Profile) : RunnerOutcome → Profile
  | .raise _ => ud
  | .ret res =>
    match res.steps with
    | .missing => ud
    | .emptySteps => ud
    | .lastLog (.plainStr _) => ud
    | .lastLog (.withToolCalls calls) => extractLoop ud calls

/-- The default reply list installed by
`output_json.get("respostas", [...])` when the parsed object lacks the
field. -/
def apologyMissing : String :=
  "Desculpe, não consegui processar minha resposta."

/-- The parsing steps of the first `try` (src/main.py lines 215-217):
`output_str = result.get("output", "\x7b\x7d")`, `json.loads(output_str)`,
`output_json.get("respostas", [fallback])`.  The error reports which
exception the step raises: `TypeError` when `output` is not a string,
`JSONDecodeError` when the text does not parse, `AttributeError` when the
parsed document is not an object (no `.get`). -/
def parsePhase (output : Option PyVal) : Except PyExc Json :=
  match output.getD (PyVal.str "\x7b\x7d") with
  | .nonstr => .error .typeError
  | .str s =>
    match pyJsonLoads s with
    | none => .error .jsonDecodeError
    | some (Json.obj fs) =>
      .ok ((objGet fs "respostas").getD (Json.arr [Json.str apologyMissing]))
    | some _ => .error .attributeError

/-- The strings of a Python list, if every element is a string (otherwise
`" ".join` raises `TypeError`). -/
def asStrings : List Json → Option (List String)
  | [] => some []
  | Json.str s :: rest => (asStrings rest).map (fun l => s :: l)
  | _ :: _ => none

/-- `" ".join(lista_de_respostas)` together with what the subsequent
`for msg in lista_de_respostas` loop of `responder` iterates over: for a
list, its elements (all must be strings); for a string, its characters; for
a dict, its keys; anything else is not iterable and raises `TypeError`. -/
def pyJoin : Json → Except PyExc (String × List String)
  | Json.arr xs =>
    match asStrings xs with
    | some l => .ok (String.intercalate " " l, l)
    | none => .error .typeError
  | Json.str s =>
    .ok (String.intercalate " " (s.data.map String.singleton),
      s.data.map String.singleton)
  | Json.obj fs =>
    .ok (String.intercalate " " (fs.map (fun p => p.1)), fs.map (fun p => p.1))
  | _ => .error .typeError

/-- Python `xs[-10:]` generalised: the last `n` elements (the whole list if
shorter). -/
def pyLastSlice (n : Nat) (l : List HMsg) : List HMsg :=
  l.drop (l.length - n)

/-- The fixed apology used when the agent's output cannot be organised
(the `json.JSONDecodeError/AttributeError/KeyError` clause). -/
def apologyParse : String :=
  "Desculpe, estou com um pouco de dificuldade para organizar minhas ideias. Poderia repetir, por favor?"

/-- The fixed apology of the catch-all `except Exception` clause. -/
def apologyUnknown : String :=
  "Desculpe, ocorreu um erro interno. Por favor, tente novamente."

/-- The tail of the handler after `lista_de_respostas` is determined
(src/main.py lines 226-247): run the extraction block, join the replies
(line 242, outside any `try`, so its `TypeError` propagates), append the
human and assistant turns, save the trimmed history (a raising save is
swallowed, leaving the stored row unchanged), and hand the reply list to
`responder`. -/
def afterParse (ud0 : Profile) (hist : List HMsg) (text : String)
    (db : Option Row) (saveFails : Bool) (runner : RunnerOutcome)
    (lista : Json) : Except PyExc (List String × Option Row) :=
  let ud1 := extractBlock ud0 runner
  match pyJoin lista with
  | .error e => .error e
  | .ok (joined, replies) =>
    let newHist := hist ++ [HMsg.human text, HMsg.ai joined]
    let db2 := if saveFails then db else save_user_data db ud1 (pyLastSlice 10 newHist)
    .ok (replies, db2)

/-- Embedding of the `webhook` handler body after load (src/main.py lines
196-247).  When `agent_executor.invoke` raises one of the exceptions named
by the first `except` clause, that clause's own log line reads the unbound
name `result` and the resulting `NameError` propagates out of the handler;
any other exception from the runner reaches the catch-all clause, which
substitutes the fixed apology and lets the turn complete. -/
def webhook (udLoaded : Option Profile) (hist : List HMsg) (text : String)
    (runner : RunnerOutcome) (db : Option Row) (saveFails : Bool) :
    Except PyExc (List String × Option Row) :=
  let ud0 := udLoaded.getD ⟨none, none⟩
  match runner with
  | .raise e =>
    match e with
    | .jsonDecodeError | .attributeError | .keyError => .error .nameError
    | _ => afterParse ud0 hist text db saveFails runner
        (Json.arr [Json.str apologyUnknown])
  | .ret res =>
    match parsePhase res.output with
    | .ok lista => afterParse ud0 hist text db saveFails runner lista
    | .error e =>
      match e with
      | .jsonDecodeError | .attributeError | .keyError =>
        afterParse ud0 hist text db saveFails runner (Json.arr [Json.str apologyParse])
      | _ => afterParse ud0 hist text db saveFails runner
          (Json.arr [Json.str apologyUnknown])

/-! ## Helper lemmas -/

theorem foldl_append_str (l : List String) : ∀ (s : String),
    l.foldl (fun r c => r ++ c) s = s ++ l.foldl (fun r c => r ++ c) "" := by
  induction l with
  | nil => intro s; simp
  | cons c cs ih =>
    intro s
    simp only [List.foldl_cons]
    rw [ih (s ++ c), ih ("" ++ c)]
    simp [String.append_assoc]

theorem join_cons (a : String) (l : List String) :
    String.join (a :: l) = a ++ String.join l := by
  simp only [String.join, List.foldl_cons]
  rw [foldl_append_str l ("" ++ a)]
  simp

theorem responder_foldl (msgs : List String) : ∀ (acc : String),
    msgs.foldl (fun acc msg => if isNonBlankB msg then acc ++ msgUnit msg else acc) acc
      = acc ++ String.join ((msgs.filter isNonBlankB).map msgUnit) := by
  induction msgs with
  | nil => intro acc; simp [String.join]
  | cons m ms ih =>
    intro acc
    cases h : isNonBlankB m with
    | true =>
      simp [h, List.filter_cons, join_cons, ih (acc ++ msgUnit m), String.append_assoc]
    | false =>
      simp [h, List.filter_cons, ih acc]

/-! ## C5 -/

/-- C5: `check_availability` applied to a timestamp whose business-timezone
reading falls on a weekend day or outside start hours 8..16 returns the
out-of-hours outcome for every calendar (so without consulting the calendar);
applied to a weekday timestamp with start hour in 8..16 it returns
"Horário disponível" when no event overlaps the 30-minute slot and
"Horário ocupado" when one does. -/
theorem claim_c5 : ∀ (sysOff : Int) (cal : List Event) (dt : PyDateTime),
    (¬(8 ≤ hourOf (convertToSP sysOff dt) ∧ hourOf (convertToSP sysOff dt) < 17 ∧
        weekdayOf (convertToSP sysOff dt) < 5) →
      verificar_disponibilidade_agenda sysOff cal dt = foraMsg ∧
      verificar_disponibilidade_agenda sysOff cal dt =
        verificar_disponibilidade_agenda sysOff [] dt) ∧
    (8 ≤ hourOf (convertToSP sysOff dt) → hourOf (convertToSP sysOff dt) < 17 →
      weekdayOf (convertToSP sysOff dt) < 5 →
      ((∀ e ∈ cal, overlapsB (convertToSP sysOff dt) e = false) →
        verificar_disponibilidade_agenda sysOff cal dt = "Horário disponível") ∧
      ((∃ e ∈ cal, overlapsB (convertToSP sysOff dt) e = true) →
        verificar_disponibilidade_agenda sysOff cal dt = "Horário ocupado")) := by
  intro sysOff cal dt
  constructor
  · intro h
    constructor <;> simp [verificar_disponibilidade_agenda, h]
  · intro h1 h2 h3
    have hcond : ¬¬(8 ≤ hourOf (convertToSP sysOff dt) ∧
        hourOf (convertToSP sysOff dt) < 17 ∧ weekdayOf (convertToSP sysOff dt) < 5) :=
      not_not_intro ⟨h1, h2, h3⟩
    constructor
    · intro hall
      have hfil : cal.filter (overlapsB (convertToSP sysOff dt)) = [] := by
        rw [List.filter_eq_nil_iff]
        intro e he
        simp [hall e he]
      simp [verificar_disponibilidade_agenda, hcond, hfil]
    · rintro ⟨e, he, hov⟩
      have hmem : e ∈ cal.filter (overlapsB (convertToSP sysOff dt)) :=
        List.mem_filter.mpr ⟨he, hov⟩
      have hfil : (cal.filter (overlapsB (convertToSP sysOff dt))).isEmpty = false := by
        cases hf : cal.filter (overlapsB (convertToSP sysOff dt)) with
        | nil => rw [hf] at hmem; cases hmem
        | cons a l => simp
      simp [verificar_disponibilidade_agenda, hcond, hfil]

/-- C5 witness: Saturday 10:00 is rejected out of hours even with a fully
booked calendar; Monday 08:00 is available against an empty calendar and
busy against an overlapping event. -/
theorem claim_c5_witness :
    verificar_disponibilidade_agenda 0 [⟨0, 20000⟩] ⟨7800, some tzSP⟩ = foraMsg ∧
    verificar_disponibilidade_agenda 0 [] ⟨480, some tzSP⟩ = "Horário disponível" ∧
    verificar_disponibilidade_agenda 0 [⟨470, 490⟩] ⟨480, some tzSP⟩ = "Horário ocupado" :=
  ⟨((claim_c5 0 [⟨0, 20000⟩] ⟨7800, some tzSP⟩).1 (by decide)).1,
   ((claim_c5 0 [] ⟨480, some tzSP⟩).2 (by decide) (by decide) (by decide)).1
     (by intro e he; cases he),
   ((claim_c5 0 [⟨470, 490⟩] ⟨480, some tzSP⟩).2 (by decide) (by decide) (by decide)).2
     ⟨⟨470, 490⟩, by simp, by decide⟩⟩

/-! ## C6 -/

/-- C6 counterexample: the supplied timestamp Monday 18:00 without an offset,
with the process running in UTC (`sysOff = 0`), is NOT read as UTC-3
wall-clock 18:00 (which the business-hours policy would reject): the code
answers "Horário disponível", while the same wall-clock time carrying the
UTC-3 offset is rejected as out of hours. -/
theorem claim_c6_counterexample :
    verificar_disponibilidade_agenda 0 [] ⟨1080, none⟩ = "Horário disponível" ∧
    verificar_disponibilidade_agenda 0 [] ⟨1080, some tzSP⟩ = foraMsg ∧
    hourOf 1080 = 18 := by decide

/-- C6 amended: the tool converts the timestamp to UTC-3 before testing the
business-hours policy; a timestamp carrying an explicit offset is read at
that offset, but a timestamp with no offset is interpreted in the process's
local timezone and then converted, so it is tested as supplied only when the
process timezone itself is UTC-3. -/
theorem claim_c6_amended : ∀ (sysOff : Int) (cal : List Event) (dt : PyDateTime),
    (∀ o, dt.off = some o → convertToSP sysOff dt = dt.wall - o + tzSP) ∧
    (dt.off = none → convertToSP sysOff dt = dt.wall - sysOff + tzSP) ∧
    (dt.off = some tzSP → convertToSP sysOff dt = dt.wall) ∧
    (dt.off = none → sysOff = tzSP → convertToSP sysOff dt = dt.wall) ∧
    (verificar_disponibilidade_agenda sysOff cal dt =
      verificar_disponibilidade_agenda sysOff cal ⟨convertToSP sysOff dt, some tzSP⟩) := by
  intro sysOff cal dt
  have hnorm : convertToSP sysOff ⟨convertToSP sysOff dt, some tzSP⟩ =
      convertToSP sysOff dt := by
    simp [convertToSP]
  refine ⟨?_, ?_, ?_, ?_, ?_⟩
  · intro o ho; simp [convertToSP, ho]
  · intro ho; simp [convertToSP, ho]
  · intro ho; simp [convertToSP, ho]
  · intro ho hs; simp [convertToSP, ho, hs]
  · simp only [verificar_disponibilidade_agenda, hnorm]

/-- C6 witness: a UTC-3-offset timestamp is read verbatim; an offset-less
timestamp under a UTC process clock is shifted by three hours. -/
theorem claim_c6_witness :
    convertToSP 0 ⟨840, some tzSP⟩ = 840 ∧
    convertToSP 0 ⟨1080, none⟩ = 1080 - 0 + tzSP :=
  ⟨(claim_c6_amended 0 [] ⟨840, some tzSP⟩).2.2.1 rfl,
   (claim_c6_amended 0 [] ⟨1080, none⟩).2.1 rfl⟩

/-! ## C7 -/

/-- C7: the reply encoder emits one message element per non-blank string of
the input, in list order, dropping blank/whitespace-only strings, with
`&`, `<`, `>` escaped; `["Hello", "", "World"]` yields exactly the two
message elements in order, `"<a&b>"` is escaped to `"&lt;a&amp;b&gt;"`, and
an input that is empty after filtering still yields the well-formed empty
envelope. -/
theorem claim_c7 :
    (∀ msgs : List String, responder msgs =
      "<Response>" ++ String.join ((msgs.filter isNonBlankB).map msgUnit)
        ++ "</Response>") ∧
    responder ["Hello", "", "World"] =
      "<Response><Message><Body>Hello</Body></Message><Message><Body>World</Body></Message></Response>" ∧
    escapeXml "<a&b>" = "&lt;a&amp;b&gt;" ∧
    (∀ msgs : List String, msgs.filter isNonBlankB = [] →
      responder msgs = "<Response></Response>") := by
  refine ⟨?_, by decide, by decide, ?_⟩
  · intro msgs
    simp only [responder]
    rw [responder_foldl msgs "<Response>"]
  · intro msgs h
    simp only [responder]
    rw [responder_foldl msgs "<Response>", h]
    decide

/-- C7 witness: a whitespace-only list collapses to the empty envelope, and
the general envelope shape instantiated at the example list. -/
theorem claim_c7_witness :
    responder ["  "] = "<Response></Response>" ∧
    responder ["Hi"] =
      "<Response>" ++ String.join (((["Hi"] : List String).filter isNonBlankB).map msgUnit)
        ++ "</Response>" :=
  ⟨claim_c7.2.2.2 ["  "] (by decide), claim_c7.1 ["Hi"]⟩

/-! ## C10 -/

/-- C10: `register_appointment` on success returns a confirmation string
containing the formatted local date/time of the slot; when the calendar
write throws after the spreadsheet row was appended it returns a single
error-tagged string (never raising, the embedding being a total function),
the appended row stays in place (no compensating rollback) and no calendar
event is created; a spreadsheet failure likewise yields the error-tagged
string with nothing written. -/
theorem claim_c10 : ∀ (st : SchedState) (nome cpf telefone : String) (d : DateParts)
    (calErrAny : Option String),
    (registrar_consulta none none st nome cpf telefone d).1 =
      "Agendamento confirmado com sucesso para " ++ fmtConsulta d ++ "." ∧
    (∃ pre post, (registrar_consulta none none st nome cpf telefone d).1 =
      pre ++ fmtConsulta d ++ post) ∧
    (registrar_consulta none none st nome cpf telefone d).2 =
      ⟨st.rows ++ [[nome, cpf, telefone, fmtSheet d, "Confirmado"]],
       st.events ++ ["Consulta: " ++ nome]⟩ ∧
    (∀ m, (registrar_consulta none (some m) st nome cpf telefone d).1 =
      "Erro ao registrar a consulta: " ++ m) ∧
    (∀ m, (registrar_consulta none (some m) st nome cpf telefone d).2 =
      ⟨st.rows ++ [[nome, cpf, telefone, fmtSheet d, "Confirmado"]], st.events⟩) ∧
    (∀ m, (registrar_consulta (some m) calErrAny st nome cpf telefone d).1 =
      "Erro ao registrar a consulta: " ++ m) ∧
    (∀ m, (registrar_consulta (some m) calErrAny st nome cpf telefone d).2 = st) := by
  intro st nome cpf telefone d calErrAny
  refine ⟨rfl, ⟨"Agendamento confirmado com sucesso para ", ".", ?_⟩, rfl,
    fun m => rfl, fun m => rfl, fun m => rfl, fun m => rfl⟩
  simp [registrar_consulta, String.append_assoc]

/-! ## C3 -/

theorem applyTurns_nome (ts : List (Profile × List HMsg)) :
    ∀ (r : Row), (∀ t ∈ ts, t.1.nome = none) →
      savedNome (applyTurns (some r) ts) = r.nome := by
  induction ts with
  | nil => intro r _; rfl
  | cons t ts ih =>
    intro r h
    have h1 : t.1.nome = none := h t (List.mem_cons_self t ts)
    have h2 : ∀ u ∈ ts, u.1.nome = none := fun u hu => h u (List.mem_cons_of_mem t hu)
    show savedNome (applyTurns (save_user_data (some r) t.1 t.2) ts) = r.nome
    rw [show save_user_data (some r) t.1 t.2 =
      some ⟨r.nome, coalesce t.1.cpf r.cpf, t.2⟩ from by simp [save_user_data, coalesce, h1]]
    exact ih ⟨r.nome, coalesce t.1.cpf r.cpf, t.2⟩ h2

theorem applyTurns_cpf (ts : List (Profile × List HMsg)) :
    ∀ (r : Row), (∀ t ∈ ts, t.1.cpf = none) →
      savedCpf (applyTurns (some r) ts) = r.cpf := by
  induction ts with
  | nil => intro r _; rfl
  | cons t ts ih =>
    intro r h
    have h1 : t.1.cpf = none := h t (List.mem_cons_self t ts)
    have h2 : ∀ u ∈ ts, u.1.cpf = none := fun u hu => h u (List.mem_cons_of_mem t hu)
    show savedCpf (applyTurns (save_user_data (some r) t.1 t.2) ts) = r.cpf
    rw [show save_user_data (some r) t.1 t.2 =
      some ⟨coalesce t.1.nome r.nome, r.cpf, t.2⟩ from by simp [save_user_data, coalesce, h1]]
    exact ih ⟨coalesce t.1.nome r.nome, r.cpf, t.2⟩ h2

/-- C3 counterexample: a nome already stored as "Alice" is overwritten by the
incoming empty string — a non-null but empty value does clear the field, so
"once set it is only overwritten by a non-empty new value" fails
(`COALESCE` tests nullness, not emptiness). -/
theorem claim_c3_counterexample :
    save_user_data (some ⟨some "Alice", some "12345678901", []⟩) ⟨some "", none⟩ [] =
      some ⟨some "", some "12345678901", []⟩ ∧ ("" : String) ≠ "Alice" :=
  ⟨rfl, by decide⟩

/-- C3 amended: on every save, each profile field is set to the incoming
value exactly when the incoming value is non-null (an empty string counts as
a value and does overwrite), otherwise the previously stored value is
preserved; consequently a field, once set, survives every later turn whose
extraction yields null for it. -/
theorem claim_c3_amended : ∀ (r : Row) (ud : Profile) (h : List HMsg)
    (ts : List (Profile × List HMsg)),
    (ud.nome = none → savedNome (save_user_data (some r) ud h) = r.nome) ∧
    (∀ v, ud.nome = some v → savedNome (save_user_data (some r) ud h) = some v) ∧
    (ud.cpf = none → savedCpf (save_user_data (some r) ud h) = r.cpf) ∧
    (∀ v, ud.cpf = some v → savedCpf (save_user_data (some r) ud h) = some v) ∧
    ((∀ t ∈ ts, t.1.nome = none) → savedNome (applyTurns (some r) ts) = r.nome) ∧
    ((∀ t ∈ ts, t.1.cpf = none) → savedCpf (applyTurns (some r) ts) = r.cpf) := by
  intro r ud h ts
  refine ⟨?_, ?_, ?_, ?_, applyTurns_nome ts r, applyTurns_cpf ts r⟩
  · intro hn; simp [save_user_data, savedNome, coalesce, hn]
  · intro v hn; simp [save_user_data, savedNome, coalesce, hn]
  · intro hc; simp [save_user_data, savedCpf, coalesce, hc]
  · intro v hc; simp [save_user_data, savedCpf, coalesce, hc]

/-- C3 witness: a stored nome survives two consecutive turns whose
extraction yields null, and a non-null incoming cpf overwrites. -/
theorem claim_c3_witness :
    savedNome (applyTurns (some ⟨some "Alice", some "1", []⟩)
      [(⟨none, some "2"⟩, []), (⟨none, none⟩, [])]) = some "Alice" ∧
    savedCpf (save_user_data (some ⟨some "Alice", some "1", []⟩)
      ⟨none, some "2"⟩ []) = some "2" :=
  ⟨(claim_c3_amended ⟨some "Alice", some "1", []⟩ ⟨none, none⟩ []
      [(⟨none, some "2"⟩, []), (⟨none, none⟩, [])]).2.2.2.2.1 (by decide),
   (claim_c3_amended ⟨some "Alice", some "1", []⟩ ⟨none, some "2"⟩ [] []).2.2.2.1 "2" rfl⟩

/-! ## C8 -/

theorem parseHistAux_good (pre : List HEntry) :
    ∀ (acc : List HMsg), (∀ e ∈ pre, entryGood e = true) →
      parseHistAux acc pre = acc ++ pre.map convEntry := by
  induction pre with
  | nil => intro acc _; simp [parseHistAux]
  | cons e es ih =>
    intro acc h
    have he : entryGood e = true := h e (List.mem_cons_self e es)
    have hes : ∀ u ∈ es, entryGood u = true := fun u hu => h u (List.mem_cons_of_mem e hu)
    cases e with
    | nondict => simp [entryGood] at he
    | dict t c =>
      cases c with
      | none => simp [entryGood] at he
      | some s =>
        rw [parseHistAux, ih _ hes]
        simp [convEntry]

theorem parseHistAux_bad (pre : List HEntry) :
    ∀ (acc : List HMsg) (bad : HEntry) (rest : List HEntry),
      (∀ e ∈ pre, entryGood e = true) → entryGood bad = false →
      parseHistAux acc (pre ++ bad :: rest) = acc ++ pre.map convEntry := by
  induction pre with
  | nil =>
    intro acc bad rest _ hbad
    cases bad with
    | nondict => simp [parseHistAux]
    | dict t c =>
      cases c with
      | none => simp [parseHistAux]
      | some s => simp [entryGood] at hbad
  | cons e es ih =>
    intro acc bad rest h hbad
    have he : entryGood e = true := h e (List.mem_cons_self e es)
    have hes : ∀ u ∈ es, entryGood u = true := fun u hu => h u (List.mem_cons_of_mem e hu)
    cases e with
    | nondict => simp [entryGood] at he
    | dict t c =>
      cases c with
      | none => simp [entryGood] at he
      | some s =>
        rw [List.cons_append, parseHistAux, ih _ bad rest hes hbad]
        simp [convEntry]

/-- C8 counterexample: a stored row whose history contains a malformed entry
does not fail open to a fresh-user state: the profile already read from the
row is returned (not "absent"), contradicting the claim that any malformed
stored history yields an absent profile and empty history. -/
theorem claim_c8_counterexample :
    load_user_data (.ok (some ⟨some "Alice", some "123", some [HEntry.nondict]⟩)) =
      (some ⟨some "Alice", some "123"⟩, []) ∧
    (some (⟨some "Alice", some "123"⟩ : Profile)) ≠ none :=
  ⟨rfl, by simp⟩

/-- C8 amended: `load` never raises past its boundary; a connection or query
failure, or an absent row, returns an absent profile and empty history; a
row with a malformed history entry returns the profile already read from the
row together with the prefix of entries parsed before the malformed one
(well-formed histories load in full). -/
theorem claim_c8_amended :
    (load_user_data (.error ()) = (none, [])) ∧
    (load_user_data (.ok none) = (none, [])) ∧
    (∀ n c, load_user_data (.ok (some ⟨n, c, none⟩)) = (some ⟨n, c⟩, [])) ∧
    (∀ n c (pre : List HEntry) (bad : HEntry) (rest : List HEntry),
      (∀ e ∈ pre, entryGood e = true) → entryGood bad = false →
      load_user_data (.ok (some ⟨n, c, some (pre ++ bad :: rest)⟩)) =
        (some ⟨n, c⟩, pre.map convEntry)) ∧
    (∀ n c (pre : List HEntry), (∀ e ∈ pre, entryGood e = true) →
      load_user_data (.ok (some ⟨n, c, some pre⟩)) = (some ⟨n, c⟩, pre.map convEntry)) := by
  refine ⟨rfl, rfl, fun n c => rfl, ?_, ?_⟩
  · intro n c pre bad rest h hbad
    have hne : pre ++ bad :: rest ≠ [] := by simp
    simp only [load_user_data, if_neg hne]
    rw [parseHistAux_bad pre [] bad rest h hbad]
    simp
  · intro n c pre h
    cases pre with
    | nil => rfl
    | cons e es =>
      have hne : e :: es ≠ [] := by simp
      simp only [load_user_data, if_neg hne]
      rw [parseHistAux_good (e :: es) [] h]
      simp

/-- C8 witness: a malformed second entry keeps the first parsed entry and
the profile; a fully well-formed history loads completely. -/
theorem claim_c8_witness :
    load_user_data (.ok (some ⟨some "A", none,
      some [HEntry.dict (some "ai") (some "olá"), HEntry.nondict]⟩)) =
      (some ⟨some "A", none⟩, [HMsg.ai "olá"]) ∧
    load_user_data (.ok (some ⟨none, some "9",
      some [HEntry.dict (some "human") (some "oi"), HEntry.dict (some "ai") (some "olá")]⟩)) =
      (some ⟨none, some "9"⟩, [HMsg.human "oi", HMsg.ai "olá"]) :=
  ⟨claim_c8_amended.2.2.2.1 (some "A") none [HEntry.dict (some "ai") (some "olá")]
      HEntry.nondict [] (by decide) (by decide),
   claim_c8_amended.2.2.2.2 none (some "9")
      [HEntry.dict (some "human") (some "oi"), HEntry.dict (some "ai") (some "olá")]
      (by decide)⟩

/-! ## Webhook-turn lemmas (for C1, C2, C4, C9) -/

theorem afterParse_fst (ud0 : Profile) (hist : List HMsg) (text : String)
    (db : Option Row) (sf : Bool) (r : RunnerOutcome) (lista : Json) :
    (afterParse ud0 hist text db sf r lista).map Prod.fst =
      (pyJoin lista).map Prod.snd := by
  cases h : pyJoin lista with
  | error e => simp [afterParse, h, Except.map]
  | ok p => obtain ⟨j, rs⟩ := p; simp [afterParse, h, Except.map]

theorem asStrings_map (rs : List String) : asStrings (rs.map Json.str) = some rs := by
  induction rs with
  | nil => rfl
  | cons s ss ih => simp [asStrings, ih]

theorem pyJoin_spec (lista : Json) (j : String) (rs : List String)
    (h : pyJoin lista = .ok (j, rs)) : j = String.intercalate " " rs := by
  cases lista with
  | arr xs =>
    simp only [pyJoin] at h
    cases hs : asStrings xs with
    | none => rw [hs] at h; cases h
    | some l =>
      rw [hs] at h
      simp only [Except.ok.injEq, Prod.mk.injEq] at h
      rw [← h.1, h.2]
  | str s =>
    simp only [pyJoin, Except.ok.injEq, Prod.mk.injEq] at h
    rw [← h.1, h.2]
  | obj fs =>
    simp only [pyJoin, Except.ok.injEq, Prod.mk.injEq] at h
    rw [← h.1, h.2]
  | null => cases h
  | bool b => cases h
  | num n => cases h

theorem save_hist (db : Option Row) (ud : Profile) (h : List HMsg) (row : Row)
    (hs : save_user_data db ud h = some row) : row.hist = h := by
  cases db with
  | none =>
    simp only [save_user_data, Option.some.injEq] at hs
    rw [← hs]
  | some r =>
    simp only [save_user_data, Option.some.injEq] at hs
    rw [← hs]

theorem webhook_shape (udL : Option Profile) (hist : List HMsg) (text : String)
    (runner : RunnerOutcome) (db : Option Row) (sf : Bool) :
    webhook udL hist text runner db sf = Except.error PyExc.nameError ∨
    ∃ lista, webhook udL hist text runner db sf =
      afterParse (udL.getD ⟨none, none⟩) hist text db sf runner lista := by
  cases runner with
  | raise e =>
    cases e with
    | jsonDecodeError => exact Or.inl rfl
    | attributeError => exact Or.inl rfl
    | keyError => exact Or.inl rfl
    | typeError =>
      exact Or.inr ⟨Json.arr [Json.str apologyUnknown], by simp [webhook]⟩
    | nameError =>
      exact Or.inr ⟨Json.arr [Json.str apologyUnknown], by simp [webhook]⟩
    | otherError =>
      exact Or.inr ⟨Json.arr [Json.str apologyUnknown], by simp [webhook]⟩
  | ret res =>
    cases hp : parsePhase res.output with
    | ok lista => exact Or.inr ⟨lista, by simp [webhook, hp]⟩
    | error e =>
      cases e with
      | jsonDecodeError =>
        exact Or.inr ⟨Json.arr [Json.str apologyParse], by simp [webhook, hp]⟩
      | attributeError =>
        exact Or.inr ⟨Json.arr [Json.str apologyParse], by simp [webhook, hp]⟩
      | keyError =>
        exact Or.inr ⟨Json.arr [Json.str apologyParse], by simp [webhook, hp]⟩
      | typeError =>
        exact Or.inr ⟨Json.arr [Json.str apologyUnknown], by simp [webhook, hp]⟩
      | nameError =>
        exact Or.inr ⟨Json.arr [Json.str apologyUnknown], by simp [webhook, hp]⟩
      | otherError =>
        exact Or.inr ⟨Json.arr [Json.str apologyUnknown], by simp [webhook, hp]⟩

theorem afterParse_hist (ud0 : Profile) (hist : List HMsg) (text : String)
    (db : Option Row) (r : RunnerOutcome) (lista : Json) (rs : List String) (row : Row)
    (h : afterParse ud0 hist text db false r lista = .ok (rs, some row)) :
    row.hist =
      pyLastSlice 10 (hist ++ [HMsg.human text, HMsg.ai (String.intercalate " " rs)]) := by
  cases hj : pyJoin lista with
  | error e => rw [afterParse, hj] at h; cases h
  | ok p =>
    obtain ⟨j, rep⟩ := p
    rw [afterParse, hj] at h
    simp only [Bool.false_eq_true, if_false, Except.ok.injEq, Prod.mk.injEq] at h
    obtain ⟨h1, h2⟩ := h
    subst h1
    have hjj : j = String.intercalate " " rep := pyJoin_spec lista j rep hj
    subst hjj
    exact save_hist _ _ _ _ h2

/-! ## C4 -/

/-- C4: whenever a turn completes (the handler returns a reply list and a
save was performed), the persisted history is exactly the most recent 10
entries, in original order, of the prior history extended with the inbound
text as one human turn followed by the space-joined reply concatenation as
one assistant turn; a prior history longer than 8 entries makes the
persisted length exactly 10, and the persisted history is always a suffix of
that extended history. -/
theorem claim_c4 : ∀ (udL : Option Profile) (hist : List HMsg) (text : String)
    (runner : RunnerOutcome) (db : Option Row) (rs : List String) (row : Row),
    webhook udL hist text runner db false = .ok (rs, some row) →
    row.hist =
      pyLastSlice 10 (hist ++ [HMsg.human text, HMsg.ai (String.intercalate " " rs)]) ∧
    (8 < hist.length → row.hist.length = 10) ∧
    (∃ k, row.hist =
      (hist ++ [HMsg.human text, HMsg.ai (String.intercalate " " rs)]).drop k) := by
  intro udL hist text runner db rs row h
  rcases webhook_shape udL hist text runner db false with hs | ⟨lista, hs⟩
  · rw [hs] at h; cases h
  · rw [hs] at h
    have hh := afterParse_hist _ _ _ _ _ _ _ _ h
    refine ⟨hh, ?_, ⟨_, hh⟩⟩
    intro hlen
    rw [hh]
    simp only [pyLastSlice, List.length_drop, List.length_append, List.length_cons,
      List.length_nil]
    omega

/-- C4 witness: a prior history of 9 entries plus the two new turns persists
exactly the most recent 10 entries. -/
theorem claim_c4_witness :
    (⟨none, none, pyLastSlice 10 (List.replicate 9 (HMsg.human "x") ++
        [HMsg.human "oi", HMsg.ai (String.intercalate " " ["Oi"])])⟩ : Row).hist =
      pyLastSlice 10 (List.replicate 9 (HMsg.human "x") ++
        [HMsg.human "oi", HMsg.ai (String.intercalate " " ["Oi"])]) ∧
    (8 < (List.replicate 9 (HMsg.human "x")).length →
      (⟨none, none, pyLastSlice 10 (List.replicate 9 (HMsg.human "x") ++
          [HMsg.human "oi", HMsg.ai (String.intercalate " " ["Oi"])])⟩ : Row).hist.length = 10) ∧
    (∃ k, (⟨none, none, pyLastSlice 10 (List.replicate 9 (HMsg.human "x") ++
        [HMsg.human "oi", HMsg.ai (String.intercalate " " ["Oi"])])⟩ : Row).hist =
      (List.replicate 9 (HMsg.human "x") ++
        [HMsg.human "oi", HMsg.ai (String.intercalate " " ["Oi"])]).drop k) :=
  claim_c4 none (List.replicate 9 (HMsg.human "x")) "oi"
    (.ret ⟨some (.str "\x7b\"respostas\": [\"Oi\"]\x7d"), .missing⟩) none ["Oi"]
    ⟨none, none, pyLastSlice 10 (List.replicate 9 (HMsg.human "x") ++
      [HMsg.human "oi", HMsg.ai (String.intercalate " " ["Oi"])])⟩ (by rfl)

/-! ## C9 -/

/-- C9: the profile-extraction step swallows every structural mismatch in
the runner's trace (missing or empty `intermediate_steps`, a plain-string
`.log`, malformed tool-call entries) and the reply outcome of the turn is
identical across all trace shapes — extraction is strictly decoupled from
reply delivery, including when the runner raised and no result exists. -/
theorem claim_c9 : ∀ (udL : Option Profile) (hist : List HMsg) (text : String)
    (o : Option PyVal) (t1 t2 : TraceShape) (db : Option Row) (sf : Bool),
    (webhook udL hist text (.ret ⟨o, t1⟩) db sf).map Prod.fst =
      (webhook udL hist text (.ret ⟨o, t2⟩) db sf).map Prod.fst := by
  intro udL hist text o t1 t2 db sf
  simp only [webhook]
  cases hp : parsePhase o with
  | ok lista => rw [afterParse_fst, afterParse_fst]
  | error e => cases e <;> rw [afterParse_fst, afterParse_fst]

/-! ## C1 -/

/-- C1 counterexample: a JSON-encoded payload whose `respostas` field is the
empty list of strings makes the turn handler return an EMPTY reply list (no
fallback engages), contradicting the claim that every such shape yields a
non-empty reply list. -/
theorem claim_c1_counterexample :
    (webhook none [] "oi"
      (.ret ⟨some (.str "\x7b\"respostas\": []\x7d"), .missing⟩) none false).map
        Prod.fst = .ok ([] : List String) := by rfl

/-- C1 amended: for every model output shape the turn handler does not
propagate an exception and returns: the parsed `respostas` list itself when
the output is a JSON-encoded text whose `respostas` field is a list of
strings (hence non-empty exactly when that list is non-empty); a single
fixed apology when the text is unparseable, when the field is absent, or
when the output value is a structured non-string object. -/
theorem claim_c1_amended : ∀ (udL : Option Profile) (hist : List HMsg) (text : String)
    (ts : TraceShape) (db : Option Row) (sf : Bool),
    (∀ (s : String) (fs : List (String × Json)) (rs : List String),
      pyJsonLoads s = some (Json.obj fs) →
      objGet fs "respostas" = some (Json.arr (rs.map Json.str)) →
      (webhook udL hist text (.ret ⟨some (.str s), ts⟩) db sf).map Prod.fst =
        .ok rs) ∧
    (∀ s, pyJsonLoads s = none →
      (webhook udL hist text (.ret ⟨some (.str s), ts⟩) db sf).map Prod.fst =
        .ok [apologyParse]) ∧
    (∀ (s : String) (fs : List (String × Json)),
      pyJsonLoads s = some (Json.obj fs) → objGet fs "respostas" = none →
      (webhook udL hist text (.ret ⟨some (.str s), ts⟩) db sf).map Prod.fst =
        .ok [apologyMissing]) ∧
    ((webhook udL hist text (.ret ⟨some PyVal.nonstr, ts⟩) db sf).map Prod.fst =
      .ok [apologyUnknown]) := by
  intro udL hist text ts db sf
  refine ⟨?_, ?_, ?_, ?_⟩
  · intro s fs rs h1 h2
    have hp : parsePhase (some (PyVal.str s)) = .ok (Json.arr (rs.map Json.str)) := by
      simp [parsePhase, h1, h2]
    rw [show webhook udL hist text (.ret ⟨some (.str s), ts⟩) db sf =
        afterParse (udL.getD ⟨none, none⟩) hist text db sf (.ret ⟨some (.str s), ts⟩)
          (Json.arr (rs.map Json.str)) from by simp [webhook, hp]]
    rw [afterParse_fst]
    simp [pyJoin, asStrings_map, Except.map]
  · intro s h1
    have hp : parsePhase (some (PyVal.str s)) = .error .jsonDecodeError := by
      simp [parsePhase, h1]
    rw [show webhook udL hist text (.ret ⟨some (.str s), ts⟩) db sf =
        afterParse (udL.getD ⟨none, none⟩) hist text db sf (.ret ⟨some (.str s), ts⟩)
          (Json.arr [Json.str apologyParse]) from by simp [webhook, hp]]
    rw [afterParse_fst]
    simp [pyJoin, asStrings, Except.map]
  · intro s fs h1 h2
    have hp : parsePhase (some (PyVal.str s)) = .ok (Json.arr [Json.str apologyMissing]) := by
      simp [parsePhase, h1, h2]
    rw [show webhook udL hist text (.ret ⟨some (.str s), ts⟩) db sf =
        afterParse (udL.getD ⟨none, none⟩) hist text db sf (.ret ⟨some (.str s), ts⟩)
          (Json.arr [Json.str apologyMissing]) from by simp [webhook, hp]]
    rw [afterParse_fst]
    simp [pyJoin, asStrings, Except.map]
  · have hp : parsePhase (some PyVal.nonstr) = .error .typeError := rfl
    rw [show webhook udL hist text (.ret ⟨some PyVal.nonstr, ts⟩) db sf =
        afterParse (udL.getD ⟨none, none⟩) hist text db sf (.ret ⟨some PyVal.nonstr, ts⟩)
          (Json.arr [Json.str apologyUnknown]) from by simp [webhook, hp]]
    rw [afterParse_fst]
    simp [pyJoin, asStrings, Except.map]

/-- C1 witness: a well-formed two-reply payload is returned verbatim, and
unparseable text falls back to the fixed apology. -/
theorem claim_c1_witness :
    (webhook none [] "oi"
      (.ret ⟨some (.str "\x7b\"respostas\": [\"Oi\", \"Tudo bem?\"]\x7d"), .missing⟩)
      none false).map Prod.fst = .ok ["Oi", "Tudo bem?"] ∧
    (webhook none [] "oi" (.ret ⟨some (.str "not json"), .missing⟩) none false).map
      Prod.fst = .ok [apologyParse] :=
  ⟨(claim_c1_amended none [] "oi" .missing none false).1
      "\x7b\"respostas\": [\"Oi\", \"Tudo bem?\"]\x7d"
      [("respostas", Json.arr [Json.str "Oi", Json.str "Tudo bem?"])]
      ["Oi", "Tudo bem?"] (by rfl) (by rfl),
   (claim_c1_amended none [] "oi" .missing none false).2.1 "not json" (by rfl)⟩

/-! ## C2 -/

/-- C2: evaluation of the handler at the failing input.  When the agent
runner itself raises one of the exceptions named by the first `except`
clause (here `KeyError`), that clause's log line reads the never-assigned
name `result` and the resulting `NameError` propagates out of the handler —
the transport boundary sees an unhandled exception instead of a well-formed
XML response. -/
theorem claim_c2_bug :
    webhook none [] "oi" (RunnerOutcome.raise PyExc.keyError) none false =
      Except.error PyExc.nameError := rfl

end Chatbot
